import Mathlib

/-
Verification of the source-acquisition core of the godojo installer
(src/godojo.go).  The two acquirers `getDojoRelease` and `getDojoSource`
and the dispatcher in `main` are embedded as pure functions over an
explicit environment recording the outcome of each external operation
(HTTP GET, file create/write/open, tar extraction, rename, stat, mkdir,
git clone, worktree, checkout).  Each function returns the trace of
external actions it performed together with the error it returns
(`none` meaning the Go function returned nil).
-/

-- URLs needed by the installer (godojo.go lines 38-40)
def HelpURL : String := "https://github.com/mtesauro/godojo"

def ReleaseURL : String := "https://github.com/DefectDojo/django-DefectDojo/archive/"

def CloneURL : String := "https://github.com/DefectDojo/django-DefectDojo.git"

/-- Configuration fields read by the acquisition core
(config.InstallConfig). -/
structure InstallConfig where
  Root : String
  Source : String
  Version : String
  SourceInstall : Bool
  SourceCommit : String
  SourceBranch : String
deriving Repr, DecidableEq

/-- Opaque Go error value. -/
inductive GoErr where
  | mk (msg : String) : GoErr
deriving Repr, DecidableEq

/-- HTTP response: status code and body (godojo.go line 130). -/
structure HttpResponse where
  status : Nat
  body : String
deriving Repr, DecidableEq

/-- External actions the acquisition core can perform, recorded in order. -/
inductive Act where
  | httpGet (url : String)
  | createFile (p : String)
  | writeFile (p : String) (content : String)
  | openFile (p : String)
  | untarInto (root : String)
  | rename (oldPath newPath : String)
  | statPath (p : String)
  | mkdirAll (p : String) (perm : Nat)
  | gitClone (url dir : String) (singleBranch : Bool) (ref : Option String)
  | gitWorktree
  | gitCheckout (hash : String)
deriving Repr, DecidableEq

/-- Outcomes of the external operations `getDojoRelease` performs, in
program order. -/
structure RelEnv where
  httpGet : Except GoErr HttpResponse
  osCreate : Except GoErr Unit
  ioCopy : Except GoErr Unit
  osOpen : Except GoErr Unit
  untar : Except GoErr Unit
  osRename : Except GoErr Unit

/-- Outcomes of the external operations `getDojoSource` performs. -/
structure SrcEnv where
  statSrc : Except GoErr Unit
  mkdirAll : Except GoErr Unit
  clone : Except GoErr Unit
  worktree : Except GoErr Unit
  checkout : Except GoErr Unit
  cloneBranch : Except GoErr Unit

/-- Go filepath.Join for the non-degenerate paths used here. -/
def joinPath (a b : String) : String := a ++ "/" ++ b

/-- Embedding of getDojoRelease (godojo.go lines 112-182).  Note that the
response status is logged but never checked (the source carries a TODO at
line 137), so execution proceeds to create and fill the tarball file for
any status code. -/
def getDojoRelease (i : InstallConfig) (env : RelEnv) : List Act × Option GoErr :=
  let dwnURL := ReleaseURL ++ i.Version ++ ".tar.gz"
  let tarball := i.Root ++ "/dojo-v" ++ i.Version ++ ".tar.gz"
  match env.httpGet with
  | Except.error e => ([Act.httpGet dwnURL], some e)
  | Except.ok resp =>
    match env.osCreate with
    | Except.error e => ([Act.httpGet dwnURL, Act.createFile tarball], some e)
    | Except.ok _ =>
      match env.ioCopy with
      | Except.error e =>
          ([Act.httpGet dwnURL, Act.createFile tarball,
            Act.writeFile tarball resp.body], some e)
      | Except.ok _ =>
        match env.osOpen with
        | Except.error e =>
            ([Act.httpGet dwnURL, Act.createFile tarball,
              Act.writeFile tarball resp.body, Act.openFile tarball], some e)
        | Except.ok _ =>
          match env.untar with
          | Except.error e =>
              ([Act.httpGet dwnURL, Act.createFile tarball,
                Act.writeFile tarball resp.body, Act.openFile tarball,
                Act.untarInto i.Root], some e)
          | Except.ok _ =>
            let oldPath := joinPath i.Root ("django-DefectDojo-" ++ i.Version)
            let newPath := joinPath i.Root i.Source
            match env.osRename with
            | Except.error e =>
                ([Act.httpGet dwnURL, Act.createFile tarball,
                  Act.writeFile tarball resp.body, Act.openFile tarball,
                  Act.untarInto i.Root, Act.rename oldPath newPath], some e)
            | Except.ok _ =>
                ([Act.httpGet dwnURL, Act.createFile tarball,
                  Act.writeFile tarball resp.body, Act.openFile tarball,
                  Act.untarInto i.Root, Act.rename oldPath newPath], none)

/-- Error built at godojo.go lines 232-233 when both source commit and
branch are empty. -/
def bothEmptyMsg (i : InstallConfig) : String :=
  "Both source commit and branch have empty or nonsensical values configured.\n" ++
  "  Source commit was configured as " ++ i.SourceCommit ++
  " and branch was configured as " ++ i.SourceBranch

/-- Embedding of godojo.go lines 203-257: the commit/branch decision and
checkout, entered with the trace of the directory-setup step.  Note that
on the commit path the source binds the error of repo.Worktree() at line
221 but immediately overwrites it with the Checkout error at line 222
without checking it, so the worktree outcome never influences the
result. -/
def afterSetup (i : InstallConfig) (env : SrcEnv) (tr : List Act) : List Act × Option GoErr :=
  let srcPath := joinPath i.Root i.Source
  if 0 < i.SourceCommit.length then
    match env.clone with
    | Except.error e => (tr ++ [Act.gitClone CloneURL srcPath false none], some e)
    | Except.ok _ =>
      match env.checkout with
      | Except.error e =>
          (tr ++ [Act.gitClone CloneURL srcPath false none, Act.gitWorktree,
                  Act.gitCheckout i.SourceCommit], some e)
      | Except.ok _ =>
          (tr ++ [Act.gitClone CloneURL srcPath false none, Act.gitWorktree,
                  Act.gitCheckout i.SourceCommit], none)
  else if i.SourceBranch.length = 0 then
    (tr, some (GoErr.mk (bothEmptyMsg i)))
  else
    match env.cloneBranch with
    | Except.error e =>
        (tr ++ [Act.gitClone CloneURL srcPath true
                  (some ("refs/heads/" ++ i.SourceBranch))], some e)
    | Except.ok _ =>
        (tr ++ [Act.gitClone CloneURL srcPath true
                  (some ("refs/heads/" ++ i.SourceBranch))], none)

/-- Embedding of getDojoSource (godojo.go lines 186-258): create the
source directory if os.Stat fails, then check out a commit or a
branch. -/
def getDojoSource (i : InstallConfig) (env : SrcEnv) : List Act × Option GoErr :=
  let srcPath := joinPath i.Root i.Source
  match env.statSrc with
  | Except.ok _ => afterSetup i env [Act.statPath srcPath]
  | Except.error _ =>
    match env.mkdirAll with
    | Except.error e =>
        ([Act.statPath srcPath, Act.mkdirAll srcPath 0o755], some e)
    | Except.ok _ =>
        afterSetup i env [Act.statPath srcPath, Act.mkdirAll srcPath 0o755]

/-- Embedding of the dispatcher in main (godojo.go lines 362-383): a
single branch on SourceInstall choosing exactly one acquirer. -/
def dispatchAcquire (conf : InstallConfig) (senv : SrcEnv) (renv : RelEnv) : List Act × Option GoErr :=
  if conf.SourceInstall then getDojoSource conf senv else getDojoRelease conf renv

/-- Effect of one action on a set of existing filesystem paths. -/
def applyAction (fs : List String) : Act → List String
  | Act.createFile p => p :: fs
  | Act.mkdirAll p _ => p :: fs
  | Act.rename o n => n :: fs.filter (fun q => q != o)
  | _ => fs

/-- Run a trace of actions over an initial set of filesystem paths. -/
def runActions (fs : List String) (tr : List Act) : List String :=
  tr.foldl applyAction fs

/-- Entry of a tar archive. -/
structure TarEntry where
  name : String
  isDir : Bool
deriving Repr, DecidableEq

/-- Normalize path components, resolving a dot to nothing and dot-dot
against the accumulator; `none` when a dot-dot climbs above the root. -/
def normComponents : List String → List String → Option (List String)
  | acc, [] => some acc.reverse
  | acc, c :: cs =>
    if c = "." then normComponents acc cs
    else if c = ".." then
      match acc with
      | [] => none
      | _ :: as => normComponents as cs
    else normComponents (c :: acc) cs

/-- Split a character list on the slash separator, the first argument
accumulating the current component in reverse. -/
def splitSlash : List Char → List Char → List String
  | cur, [] => [String.mk cur.reverse]
  | cur, c :: cs =>
    if c = '/' then String.mk cur.reverse :: splitSlash [] cs
    else splitSlash (c :: cur) cs

/-- Non-empty slash-separated components of a path. -/
def pathComponents (p : String) : List String :=
  (splitSlash [] p.data).filter (fun c => c ≠ "")

/-- Whether a path starts with a slash. -/
def isAbsolute (p : String) : Bool :=
  match p.data with
  | [] => false
  | c :: _ => c = '/'

/-- Resolve a tar entry name under a root directory; `none` when the
entry is absolute or escapes the root. -/
def resolveUnder (root : String) (p : String) : Option String :=
  if isAbsolute p then none
  else
    match normComponents [] (pathComponents p) with
    | none => none
    | some cs => some (root ++ "/" ++ String.intercalate "/" cs)

/-- Modelled from the spec: `util.Untar` (package util of this
repository, whose source is not included here) extracts regular files
and directories of a tar archive under the given root, preserving
relative paths, and rejects any entry whose resolved path escapes the
root.  Returns the list of paths created. -/
def Untar (root : String) : List TarEntry → Except GoErr (List String)
  | [] => Except.ok []
  | t :: rest =>
    match resolveUnder root t.name with
    | none => Except.error (GoErr.mk ("tar entry escapes the extraction root: " ++ t.name))
    | some p =>
      match Untar root rest with
      | Except.error e => Except.error e
      | Except.ok ps => Except.ok (p :: ps)

-- Sample configurations and environments used as concrete inputs.
def cfgSrcCommit : InstallConfig :=
  ⟨"/opt/dojo", "dojo", "1.2.3", true, "abc123", "release/2.0"⟩

def cfgSrcEmpty : InstallConfig :=
  ⟨"/opt/dojo", "dojo", "1.2.3", true, "", ""⟩

def cfgRel : InstallConfig :=
  ⟨"/opt/dojo", "dojo", "1.2.3", false, "", ""⟩

def respOK : HttpResponse := ⟨200, "archive-bytes"⟩

def resp404 : HttpResponse := ⟨404, "Not Found"⟩

def relEnvOK : RelEnv :=
  ⟨Except.ok respOK, Except.ok (), Except.ok (), Except.ok (), Except.ok (), Except.ok ()⟩

def relEnv404 : RelEnv :=
  ⟨Except.ok resp404, Except.ok (), Except.ok (), Except.ok (), Except.ok (), Except.ok ()⟩

def srcEnvOK : SrcEnv :=
  ⟨Except.ok (), Except.ok (), Except.ok (), Except.ok (), Except.ok (), Except.ok ()⟩

def srcEnvAbsent : SrcEnv :=
  ⟨Except.error (GoErr.mk "stat: no such file or directory"), Except.ok (),
   Except.ok (), Except.ok (), Except.ok (), Except.ok ()⟩

def srcEnvMkdirFail : SrcEnv :=
  ⟨Except.error (GoErr.mk "stat: no such file or directory"),
   Except.error (GoErr.mk "mkdir: permission denied"),
   Except.ok (), Except.ok (), Except.ok (), Except.ok ()⟩

def srcEnvWtFail : SrcEnv :=
  ⟨Except.ok (), Except.ok (), Except.ok (),
   Except.error (GoErr.mk "worktree failed"), Except.ok (), Except.ok ()⟩

-- Helper lemmas shared by several theorems below.

theorem length_pos_of_ne_empty (s : String) (h : s ≠ "") : 0 < s.length := by
  cases s with
  | mk data =>
    cases data with
    | nil => exact absurd rfl h
    | cons a as => simp [String.length]

theorem httpGet_notMem_afterSetup (i : InstallConfig) (env : SrcEnv) (tr : List Act)
    (h : ∀ u, Act.httpGet u ∉ tr) (url : String) :
    Act.httpGet url ∉ (afterSetup i env tr).1 := by
  rcases env with ⟨s, m, c, w, k, cb⟩
  simp only [afterSetup]
  split
  · cases c <;> cases k <;> simp [h url]
  · split
    · simpa using h url
    · cases cb <;> simp [h url]

theorem httpGet_notMem_getDojoSource (i : InstallConfig) (env : SrcEnv) (url : String) :
    Act.httpGet url ∉ (getDojoSource i env).1 := by
  unfold getDojoSource
  cases hs : env.statSrc with
  | ok _ => exact httpGet_notMem_afterSetup i env _ (by simp) url
  | error e =>
    cases hm : env.mkdirAll with
    | error e2 => simp
    | ok _ => exact httpGet_notMem_afterSetup i env _ (by simp) url

theorem gitClone_notMem_getDojoRelease (i : InstallConfig) (env : RelEnv)
    (u d : String) (sb : Bool) (r : Option String) :
    Act.gitClone u d sb r ∉ (getDojoRelease i env).1 := by
  rcases env with ⟨g, c, w, o, ut, rn⟩
  cases g <;> cases c <;> cases w <;> cases o <;> cases ut <;> cases rn <;>
    simp [getDojoRelease]

/-- C1: the dispatcher branches exactly once on SourceInstall, delegating
to getDojoSource when true and to getDojoRelease when false, returning the
trace and error of the chosen delegate unchanged; the source-install path never
performs an HTTP release download and the release path never performs a
git clone, so exactly one acquisition path executes per run. -/
theorem dispatcher_exactly_one_path (conf : InstallConfig) (senv : SrcEnv) (renv : RelEnv) :
    (conf.SourceInstall = true → dispatchAcquire conf senv renv = getDojoSource conf senv) ∧
    (conf.SourceInstall = false → dispatchAcquire conf senv renv = getDojoRelease conf renv) ∧
    (conf.SourceInstall = true →
      ∀ url, Act.httpGet url ∉ (dispatchAcquire conf senv renv).1) ∧
    (conf.SourceInstall = false →
      ∀ u d sb r, Act.gitClone u d sb r ∉ (dispatchAcquire conf senv renv).1) := by
  refine ⟨?_, ?_, ?_, ?_⟩ <;> intro h
  · simp [dispatchAcquire, h]
  · simp [dispatchAcquire, h]
  · intro url
    simpa [dispatchAcquire, h] using httpGet_notMem_getDojoSource conf senv url
  · intro u d sb r
    simpa [dispatchAcquire, h] using gitClone_notMem_getDojoRelease conf renv u d sb r

theorem dispatcher_exactly_one_path_witness :
    cfgSrcCommit.SourceInstall = true ∧
    dispatchAcquire cfgSrcCommit srcEnvOK relEnvOK = getDojoSource cfgSrcCommit srcEnvOK ∧
    (∀ url, Act.httpGet url ∉ (dispatchAcquire cfgSrcCommit srcEnvOK relEnvOK).1) :=
  ⟨rfl, (dispatcher_exactly_one_path cfgSrcCommit srcEnvOK relEnvOK).1 rfl,
   (dispatcher_exactly_one_path cfgSrcCommit srcEnvOK relEnvOK).2.2.1 rfl⟩

theorem afterSetup_commit_ignores_branch (i : InstallConfig) (env : SrcEnv) (tr : List Act)
    (b : String) (h : 0 < i.SourceCommit.length) :
    afterSetup { i with SourceBranch := b } env tr = afterSetup i env tr := by
  unfold afterSetup
  rw [if_pos h, if_pos h]

theorem branchClone_notMem_afterSetup_commit (i : InstallConfig) (env : SrcEnv) (tr : List Act)
    (hc : 0 < i.SourceCommit.length) (h : ∀ u d r, Act.gitClone u d true r ∉ tr)
    (u d : String) (r : Option String) :
    Act.gitClone u d true r ∉ (afterSetup i env tr).1 := by
  rcases env with ⟨s, m, c, w, k, cb⟩
  unfold afterSetup
  rw [if_pos hc]
  cases c <;> cases k <;> simp [h u d r]

theorem commitActions_mem_afterSetup (i : InstallConfig) (env : SrcEnv) (tr : List Act)
    (hc : 0 < i.SourceCommit.length) (hcl : env.clone = Except.ok ()) :
    Act.gitClone CloneURL (joinPath i.Root i.Source) false none ∈ (afterSetup i env tr).1 ∧
    Act.gitCheckout i.SourceCommit ∈ (afterSetup i env tr).1 := by
  unfold afterSetup
  rw [if_pos hc, hcl]
  cases hk : env.checkout <;> simp

/-- C2: when SourceCommit is non-empty, getDojoSource takes the commit
path: its result is unaffected by any change to SourceBranch, it never
performs a single-branch (branch) clone, and, once the directory setup and
the full clone into Root/Source succeed, the trace contains the full
clone of the repository into Root/Source followed by the checkout of
exactly the configured commit hash. -/
theorem commit_precedence_ignores_branch (i : InstallConfig) (env : SrcEnv) (b : String)
    (h : i.SourceCommit ≠ "") :
    getDojoSource { i with SourceBranch := b } env = getDojoSource i env ∧
    (∀ u d r, Act.gitClone u d true r ∉ (getDojoSource i env).1) ∧
    ((env.statSrc = Except.ok () ∨ env.mkdirAll = Except.ok ()) →
      env.clone = Except.ok () →
      Act.gitClone CloneURL (joinPath i.Root i.Source) false none ∈ (getDojoSource i env).1 ∧
      Act.gitCheckout i.SourceCommit ∈ (getDojoSource i env).1) := by
  have hc : 0 < i.SourceCommit.length := length_pos_of_ne_empty _ h
  refine ⟨?_, ?_, ?_⟩
  · unfold getDojoSource
    cases hs : env.statSrc with
    | ok _ => exact afterSetup_commit_ignores_branch i env _ b hc
    | error e =>
      cases hm : env.mkdirAll with
      | error e2 => rfl
      | ok _ => exact afterSetup_commit_ignores_branch i env _ b hc
  · intro u d r
    unfold getDojoSource
    cases hs : env.statSrc with
    | ok _ => exact branchClone_notMem_afterSetup_commit i env _ hc (by simp) u d r
    | error e =>
      cases hm : env.mkdirAll with
      | error e2 => simp
      | ok _ => exact branchClone_notMem_afterSetup_commit i env _ hc (by simp) u d r
  · intro hok hcl
    unfold getDojoSource
    cases hs : env.statSrc with
    | ok _ => exact commitActions_mem_afterSetup i env _ hc hcl
    | error e =>
      cases hm : env.mkdirAll with
      | error e2 =>
        rcases hok with hok | hok
        · rw [hs] at hok; exact Except.noConfusion hok
        · rw [hm] at hok; exact Except.noConfusion hok
      | ok _ => exact commitActions_mem_afterSetup i env _ hc hcl

theorem commit_precedence_ignores_branch_witness :
    cfgSrcCommit.SourceCommit ≠ "" ∧
    getDojoSource { cfgSrcCommit with SourceBranch := "other" } srcEnvOK =
      getDojoSource cfgSrcCommit srcEnvOK ∧
    Act.gitCheckout "abc123" ∈ (getDojoSource cfgSrcCommit srcEnvOK).1 :=
  ⟨by decide,
   (commit_precedence_ignores_branch cfgSrcCommit srcEnvOK "other" (by decide)).1,
   ((commit_precedence_ignores_branch cfgSrcCommit srcEnvOK "other" (by decide)).2.2
     (Or.inl rfl) rfl).2⟩

theorem afterSetup_bothEmpty (i : InstallConfig) (env : SrcEnv) (tr : List Act)
    (hc : i.SourceCommit = "") (hb : i.SourceBranch = "") :
    afterSetup i env tr = (tr, some (GoErr.mk (bothEmptyMsg i))) := by
  unfold afterSetup
  rw [if_neg (by rw [hc]; decide), if_pos (by rw [hb]; decide)]

/-- C3: when SourceInstall selects the source path and both SourceCommit
and SourceBranch are empty, getDojoSource performs no git clone and no
HTTP download, and (whenever the directory-setup step itself does not
fail) returns the descriptive configuration error built from the two
empty fields. -/
theorem empty_commit_branch_config_error (i : InstallConfig) (env : SrcEnv)
    (hc : i.SourceCommit = "") (hb : i.SourceBranch = "") :
    (∀ u d sb r, Act.gitClone u d sb r ∉ (getDojoSource i env).1) ∧
    (∀ url, Act.httpGet url ∉ (getDojoSource i env).1) ∧
    ((env.statSrc = Except.ok () ∨ env.mkdirAll = Except.ok ()) →
      (getDojoSource i env).2 = some (GoErr.mk (bothEmptyMsg i))) := by
  have key : ∀ tr, afterSetup i env tr = (tr, some (GoErr.mk (bothEmptyMsg i))) :=
    fun tr => afterSetup_bothEmpty i env tr hc hb
  refine ⟨?_, ?_, ?_⟩
  · intro u d sb r
    simp only [getDojoSource]
    cases hs : env.statSrc with
    | ok _ => simp [key]
    | error e =>
      cases hm : env.mkdirAll with
      | error e2 => simp
      | ok _ => simp [key]
  · intro url
    exact httpGet_notMem_getDojoSource i env url
  · intro hok
    simp only [getDojoSource]
    cases hs : env.statSrc with
    | ok _ => simp [key]
    | error e =>
      cases hm : env.mkdirAll with
      | error e2 =>
        rcases hok with hok | hok
        · rw [hs] at hok; exact Except.noConfusion hok
        · rw [hm] at hok; exact Except.noConfusion hok
      | ok _ => simp [key]

theorem empty_commit_branch_config_error_witness :
    cfgSrcEmpty.SourceCommit = "" ∧ cfgSrcEmpty.SourceBranch = "" ∧
    (∀ u d sb r, Act.gitClone u d sb r ∉ (getDojoSource cfgSrcEmpty srcEnvOK).1) ∧
    (getDojoSource cfgSrcEmpty srcEnvOK).2 = some (GoErr.mk (bothEmptyMsg cfgSrcEmpty)) :=
  ⟨rfl, rfl, (empty_commit_branch_config_error cfgSrcEmpty srcEnvOK rfl rfl).1,
   (empty_commit_branch_config_error cfgSrcEmpty srcEnvOK rfl rfl).2.2 (Or.inl rfl)⟩

/-- C4: on a fully successful run, getDojoRelease performs, in order, the
HTTP GET of the fixed release base URL plus the configured version (with
the .tar.gz extension), the creation and filling of the archive file at
Root/dojo-v<Version>.tar.gz, the extraction into Root, and the rename of
the versioned top-level directory Root/django-DefectDojo-<Version> to
Root/Source, so the final source directory exists at Root/Source. -/
theorem release_builds_paths_and_renames (i : InstallConfig) (env : RelEnv) (resp : HttpResponse)
    (hg : env.httpGet = Except.ok resp) (hc : env.osCreate = Except.ok ())
    (hw : env.ioCopy = Except.ok ()) (ho : env.osOpen = Except.ok ())
    (hu : env.untar = Except.ok ()) (hr : env.osRename = Except.ok ()) :
    getDojoRelease i env =
      ([Act.httpGet (ReleaseURL ++ i.Version ++ ".tar.gz"),
        Act.createFile (i.Root ++ "/dojo-v" ++ i.Version ++ ".tar.gz"),
        Act.writeFile (i.Root ++ "/dojo-v" ++ i.Version ++ ".tar.gz") resp.body,
        Act.openFile (i.Root ++ "/dojo-v" ++ i.Version ++ ".tar.gz"),
        Act.untarInto i.Root,
        Act.rename (joinPath i.Root ("django-DefectDojo-" ++ i.Version))
          (joinPath i.Root i.Source)], none) ∧
    (∀ fs, joinPath i.Root i.Source ∈ runActions fs (getDojoRelease i env).1) := by
  have heq : getDojoRelease i env =
      ([Act.httpGet (ReleaseURL ++ i.Version ++ ".tar.gz"),
        Act.createFile (i.Root ++ "/dojo-v" ++ i.Version ++ ".tar.gz"),
        Act.writeFile (i.Root ++ "/dojo-v" ++ i.Version ++ ".tar.gz") resp.body,
        Act.openFile (i.Root ++ "/dojo-v" ++ i.Version ++ ".tar.gz"),
        Act.untarInto i.Root,
        Act.rename (joinPath i.Root ("django-DefectDojo-" ++ i.Version))
          (joinPath i.Root i.Source)], none) := by
    simp only [getDojoRelease, hg, hc, hw, ho, hu, hr]
  refine ⟨heq, ?_⟩
  intro fs
  rw [heq]
  simp [runActions, applyAction]

theorem release_builds_paths_and_renames_witness :
    relEnvOK.httpGet = Except.ok respOK ∧
    (getDojoRelease cfgRel relEnvOK).2 = none ∧
    joinPath cfgRel.Root cfgRel.Source ∈ runActions [] (getDojoRelease cfgRel relEnvOK).1 := by
  refine ⟨rfl, ?_, ?_⟩
  · rw [(release_builds_paths_and_renames cfgRel relEnvOK respOK rfl rfl rfl rfl rfl rfl).1]
  · exact (release_builds_paths_and_renames cfgRel relEnvOK respOK rfl rfl rfl rfl rfl rfl).2 []

/-- C5: the archive fetcher does not validate the HTTP status of the GET
response (the source carries a TODO at godojo.go line 137): on a 404
response whose body is an error page, getDojoRelease still writes the
response body to the tarball file on disk and returns success, instead of
propagating a non-success status as an acquisition error. -/
theorem release_ignores_http_status :
    resp404.status = 404 ∧
    (getDojoRelease cfgRel relEnv404).2 = none ∧
    Act.writeFile "/opt/dojo/dojo-v1.2.3.tar.gz" "Not Found" ∈
      (getDojoRelease cfgRel relEnv404).1 := by
  refine ⟨rfl, rfl, ?_⟩
  decide

/-- C6: at godojo.go lines 221-222 the error returned by repo.Worktree()
is bound and immediately overwritten by the Checkout error without being
checked: with a failing worktree operation but a succeeding checkout, the
commit path of getDojoSource still performs the checkout and returns
success, silently swallowing the worktree error instead of returning
it. -/
theorem worktree_error_swallowed :
    srcEnvWtFail.worktree = Except.error (GoErr.mk "worktree failed") ∧
    (getDojoSource cfgSrcCommit srcEnvWtFail).2 = none ∧
    Act.gitCheckout "abc123" ∈ (getDojoSource cfgSrcCommit srcEnvWtFail).1 := by
  refine ⟨rfl, ?_, ?_⟩ <;> decide

theorem mem_afterSetup_of_mem (i : InstallConfig) (env : SrcEnv) (tr : List Act) (a : Act)
    (h : a ∈ tr) : a ∈ (afterSetup i env tr).1 := by
  rcases env with ⟨s, m, c, w, k, cb⟩
  simp only [afterSetup]
  split
  · cases c <;> cases k <;> simp [h]
  · split
    · simpa using h
    · cases cb <;> simp [h]

/-- C7: when os.Stat reports Root/Source absent, getDojoSource attempts
to create it with permissions 0755, and when that creation fails the call
returns exactly the creation error after only the stat and mkdir
actions, so no clone is performed. -/
theorem source_dir_create_failure_fatal (i : InstallConfig) (env : SrcEnv) (e e2 : GoErr)
    (hs : env.statSrc = Except.error e) :
    Act.mkdirAll (joinPath i.Root i.Source) 0o755 ∈ (getDojoSource i env).1 ∧
    (env.mkdirAll = Except.error e2 →
      getDojoSource i env =
        ([Act.statPath (joinPath i.Root i.Source),
          Act.mkdirAll (joinPath i.Root i.Source) 0o755], some e2)) := by
  constructor
  · simp only [getDojoSource, hs]
    cases hm : env.mkdirAll with
    | error e3 => simp
    | ok _ =>
      exact mem_afterSetup_of_mem i env _ _ (by simp)
  · intro hm
    simp only [getDojoSource, hs, hm]

theorem source_dir_create_failure_fatal_witness :
    srcEnvMkdirFail.statSrc = Except.error (GoErr.mk "stat: no such file or directory") ∧
    srcEnvMkdirFail.mkdirAll = Except.error (GoErr.mk "mkdir: permission denied") ∧
    getDojoSource cfgSrcCommit srcEnvMkdirFail =
      ([Act.statPath "/opt/dojo/dojo", Act.mkdirAll "/opt/dojo/dojo" 0o755],
       some (GoErr.mk "mkdir: permission denied")) :=
  ⟨rfl, rfl,
   (source_dir_create_failure_fatal cfgSrcCommit srcEnvMkdirFail
     (GoErr.mk "stat: no such file or directory") (GoErr.mk "mkdir: permission denied")
     rfl).2 rfl⟩

theorem resolveUnder_shape (root p q : String) (h : resolveUnder root p = some q) :
    ∃ s, q = root ++ "/" ++ s := by
  unfold resolveUnder at h
  split at h
  · exact Option.noConfusion h
  · split at h
    · exact Option.noConfusion h
    · exact ⟨_, (Option.some.injEq _ _ ▸ h).symm⟩

theorem untar_paths_under_root (root : String) (entries : List TarEntry) (out : List String)
    (h : Untar root entries = Except.ok out) :
    ∀ p ∈ out, ∃ s, p = root ++ "/" ++ s := by
  induction entries generalizing out with
  | nil =>
    unfold Untar at h
    injection h with h
    subst h
    intro p hp
    exact absurd hp (List.not_mem_nil p)
  | cons t rest ih =>
    unfold Untar at h
    cases hr : resolveUnder root t.name with
    | none => rw [hr] at h; exact Except.noConfusion h
    | some q =>
      rw [hr] at h
      cases hrec : Untar root rest with
      | error e => rw [hrec] at h; exact Except.noConfusion h
      | ok ps =>
        rw [hrec] at h
        injection h with h
        subst h
        intro p hp
        rcases List.mem_cons.mp hp with hp | hp
        · subst hp; exact resolveUnder_shape root t.name _ hr
        · exact ih ps hrec p hp

theorem untar_error_of_escape (root : String) (entries : List TarEntry) (t : TarEntry)
    (ht : t ∈ entries) (hesc : resolveUnder root t.name = none) :
    ∃ er, Untar root entries = Except.error er := by
  induction entries with
  | nil => exact absurd ht (List.not_mem_nil t)
  | cons a rest ih =>
    rcases List.mem_cons.mp ht with rfl | hmem
    · refine ⟨GoErr.mk ("tar entry escapes the extraction root: " ++ t.name), ?_⟩
      unfold Untar
      rw [hesc]
    · cases ha : resolveUnder root a.name with
      | none =>
        refine ⟨GoErr.mk ("tar entry escapes the extraction root: " ++ a.name), ?_⟩
        unfold Untar
        rw [ha]
      | some q =>
        rcases ih hmem with ⟨er, her⟩
        refine ⟨er, ?_⟩
        unfold Untar
        rw [ha, her]

/-- C8: archive extraction (util.Untar, modelled from the spec) only
creates paths of the form Root/<relative suffix> obtained by resolving an
entry name that stays under the root, and whenever the resolved path of
some entry escapes the root (an absolute name or a dot-dot climbing above
the root) the extraction returns an error. -/
theorem untar_rejects_escape (root : String) (entries : List TarEntry) :
    (∀ out, Untar root entries = Except.ok out → ∀ p ∈ out, ∃ s, p = root ++ "/" ++ s) ∧
    (∀ t ∈ entries, resolveUnder root t.name = none →
      ∃ er, Untar root entries = Except.error er) :=
  ⟨fun out h => untar_paths_under_root root entries out h,
   fun t ht hesc => untar_error_of_escape root entries t ht hesc⟩

theorem untar_rejects_escape_witness :
    TarEntry.mk "../evil" false ∈ [TarEntry.mk "../evil" false] ∧
    resolveUnder "/opt/dojo" "../evil" = none ∧
    (∃ er, Untar "/opt/dojo" [TarEntry.mk "../evil" false] = Except.error er) :=
  ⟨List.mem_singleton.mpr rfl, rfl,
   (untar_rejects_escape "/opt/dojo" [TarEntry.mk "../evil" false]).2
     (TarEntry.mk "../evil" false) (List.mem_singleton.mpr rfl) rfl⟩

/-- C9: getDojoRelease never removes the tarball it downloaded: on every
successful run, the archive file at Root/dojo-v<Version>.tar.gz is still
present in the resulting filesystem state (the only removal in the trace
is the rename of the versioned extracted directory, a distinct path). -/
theorem tarball_survives_success (i : InstallConfig) (env : RelEnv) (fs : List String)
    (hsucc : (getDojoRelease i env).2 = none)
    (hne : i.Root ++ "/dojo-v" ++ i.Version ++ ".tar.gz" ≠
      joinPath i.Root ("django-DefectDojo-" ++ i.Version)) :
    i.Root ++ "/dojo-v" ++ i.Version ++ ".tar.gz" ∈
      runActions fs (getDojoRelease i env).1 := by
  rcases env with ⟨g, c, w, o, ut, rn⟩
  cases g <;> cases c <;> cases w <;> cases o <;> cases ut <;> cases rn <;>
    simp [getDojoRelease, runActions, applyAction, List.mem_filter, hne] at hsucc ⊢

theorem tarball_survives_success_witness :
    (getDojoRelease cfgRel relEnvOK).2 = none ∧
    "/opt/dojo/dojo-v1.2.3.tar.gz" ∈ runActions [] (getDojoRelease cfgRel relEnvOK).1 :=
  ⟨rfl, tarball_survives_success cfgRel relEnvOK [] rfl (by decide)⟩

/-- C10: getDojoSource creates the Root/Source directory before
validating the commit/branch configuration: when both SourceCommit and
SourceBranch are empty and the directory was absent, the call returns the
configuration error even though the mkdir already took effect, so
Root/Source exists in the resulting filesystem state despite the
failure. -/
theorem config_error_after_mkdir (i : InstallConfig) (env : SrcEnv) (e : GoErr) (fs : List String)
    (hc : i.SourceCommit = "") (hb : i.SourceBranch = "")
    (hs : env.statSrc = Except.error e) (hm : env.mkdirAll = Except.ok ()) :
    (getDojoSource i env).2 = some (GoErr.mk (bothEmptyMsg i)) ∧
    joinPath i.Root i.Source ∈ runActions fs (getDojoSource i env).1 := by
  have key := afterSetup_bothEmpty i env
    [Act.statPath (joinPath i.Root i.Source),
     Act.mkdirAll (joinPath i.Root i.Source) 0o755] hc hb
  have hrun : getDojoSource i env =
      ([Act.statPath (joinPath i.Root i.Source),
        Act.mkdirAll (joinPath i.Root i.Source) 0o755],
       some (GoErr.mk (bothEmptyMsg i))) := by
    simp only [getDojoSource, hs, hm, key]
  rw [hrun]
  constructor
  · rfl
  · simp [runActions, applyAction]

theorem config_error_after_mkdir_witness :
    (getDojoSource cfgSrcEmpty srcEnvAbsent).2 =
      some (GoErr.mk (bothEmptyMsg cfgSrcEmpty)) ∧
    "/opt/dojo/dojo" ∈ runActions [] (getDojoSource cfgSrcEmpty srcEnvAbsent).1 :=
  config_error_after_mkdir cfgSrcEmpty srcEnvAbsent
    (GoErr.mk "stat: no such file or directory") [] rfl rfl rfl rfl
